import Mathlib

/-!
Shallow embedding of the credential-rotation / failover subsystem of the
repository (src/src/lib/gemini-rotator.ts, together with the dispatch
skeleton of src/src/lib/gemini.ts `generateInterviewQuestion`).

Modelling conventions:
* Timestamps (`Date.now()`) are natural numbers passed in explicitly; a run
  of `makeGeminiRequest` receives a time function `tFn : Nat → Nat` giving
  the clock value observed during attempt number `k` (the source reads the
  clock several times inside one attempt; all reads of one attempt are
  modelled with the same value, which is the only granularity the claims
  need).
* The `keyStatuses` Map of the source is keyed by the key string; keys in a
  configuration are pairwise distinct, so the Map is represented
  positionally: `statuses[i]` is the record of `apiKeys[i]`, and the key
  string is stored inside the record.
* JavaScript truthiness of `status.blacklistedUntil` (`undefined` and `0`
  are falsy) is modelled by `untilTruthy`.
* A JavaScript error object is modelled by the two values the classifier
  functions extract from it: `message = error.message || error.toString()
  || ''` and `status = error.status || error.code || 0`.
* `GoogleGenAI` clients carry no state that the subsystem reads; handing
  out a client is modelled as handing out the index of the selected key.
  The `if (!client) throw` guard of `getCurrentClient` cannot fire for a
  constructed rotator (every configured key gets a client), so it is not
  modelled; likewise all code paths assume the constructor's guarantee of a
  non-empty key list (stated as the hypothesis `0 < st.statuses.length`
  where needed).
-/

/-- Per-key record (`ApiKeyStatus` of the source). -/
structure ApiKeyStatus where
  key : String
  isBlacklisted : Bool
  blacklistedUntil : Option Nat
  lastUsed : Option Nat
  requestCount : Nat
deriving Repr, DecidableEq

/-- Rotator state: the shared mutable fields of class `GeminiRotator`. -/
structure RotatorState where
  statuses : List ApiKeyStatus
  currentKeyIndex : Nat
  blacklistDuration : Nat
deriving Repr, DecidableEq

/-- Out-of-range placeholder for positional lookups (never reached on the
code paths the theorems describe). -/
def dummyStatus : ApiKeyStatus :=
  { key := "", isBlacklisted := false, blacklistedUntil := none,
    lastUsed := none, requestCount := 0 }

/-- Positional lookup in the status table. -/
def statusAt (st : RotatorState) (i : Nat) : ApiKeyStatus :=
  st.statuses.getD i dummyStatus

/-- Positional update in the status table (`Map.get` + field mutation). -/
def updateStatus (st : RotatorState) (i : Nat) (f : ApiKeyStatus → ApiKeyStatus) :
    RotatorState :=
  { st with statuses := st.statuses.set i (f (st.statuses.getD i dummyStatus)) }

/-- JavaScript truthiness of the optional `blacklistedUntil` number. -/
def untilTruthy : Option Nat → Bool
  | none => false
  | some u => u != 0

/-- The source's hard-coded `blacklistDuration` (24 hours in ms). -/
def blacklistDurationDefault : Nat := 24 * 60 * 60 * 1000

/-- The source's default for `makeGeminiRequest`'s `maxRetries` parameter. -/
def defaultMaxRetries : Nat := 3

/-- JavaScript `String.prototype.trim`, modelled structurally (drop leading
and trailing whitespace); Lean's own `String.trim` is implemented by
well-founded recursion on byte positions, which a kernel evaluation cannot
reduce, so the equivalent list-based form is used. -/
def jsTrim (s : String) : String :=
  String.mk (((s.toList.dropWhile Char.isWhitespace).reverse.dropWhile
    Char.isWhitespace).reverse)

/-- Source `constructor`: the five `GEMINI_API_KEY*` environment slots, filtered by
`key && key.trim() !== ''`. -/
def mkRotatorKeys (envKeys : List (Option String)) : List String :=
  envKeys.filterMap fun o =>
    match o with
    | none => none
    | some k => if k != "" && jsTrim k != "" then some k else none

/-- Source `constructor` of `GeminiRotator`: reads the five environment slots,
filters empty keys, errors when none remain, otherwise builds fresh
records with `isBlacklisted = false` and `requestCount = 0`. -/
def mkRotator (e1 e2 e3 e4 e5 : Option String) : Except String RotatorState :=
  let keys := mkRotatorKeys [e1, e2, e3, e4, e5]
  if keys.length = 0 then
    Except.error "No Gemini API keys found in environment variables"
  else
    Except.ok
      { statuses := keys.map fun k =>
          { key := k, isBlacklisted := false, blacklistedUntil := none,
            lastUsed := none, requestCount := 0 }
        currentKeyIndex := 0
        blacklistDuration := blacklistDurationDefault }

/-- The cleanup condition of `cleanupExpiredBlacklists`:
`status.isBlacklisted && status.blacklistedUntil && status.blacklistedUntil <= now`. -/
def expiredFlag (now : Nat) (s : ApiKeyStatus) : Bool :=
  s.isBlacklisted && (match s.blacklistedUntil with
    | none => false
    | some u => u != 0 && decide (u ≤ now))

/-- Source `cleanupExpiredBlacklists`: lazily clears every expired blacklist. -/
def cleanupExpiredBlacklists (now : Nat) (st : RotatorState) : RotatorState :=
  { st with statuses := st.statuses.map fun s =>
      if expiredFlag now s then
        { s with isBlacklisted := false, blacklistedUntil := none }
      else s }

/-- The forward scan of `getActiveKey`: first index `(currentKeyIndex + i) %
n` (for `i = 0, …, n-1`) whose record is not blacklisted. -/
def scanActive (st : RotatorState) : Option Nat :=
  (List.range st.statuses.length).findSome? fun i =>
    let k := (st.currentKeyIndex + i) % st.statuses.length
    if (statusAt st k).isBlacklisted = false then some k else none

/-- The all-blacklisted fallback of `getActiveKey`: fold over all records
keeping the first index whose truthy `blacklistedUntil` is strictly below
the best seen so far (`earliestExpiry` starts at `Infinity`, modelled as
`none`; `bestIndex` starts at `0`). -/
def earliestBlacklisted (st : RotatorState) : Nat :=
  (st.statuses.enum.foldl
    (fun acc p =>
      match p.2.blacklistedUntil with
      | none => acc
      | some u =>
        if u != 0 && (match acc.1 with
            | none => true
            | some e => decide (u < e)) then
          (some u, p.1)
        else acc)
    ((none : Option Nat), 0)).2

/-- Source `getActiveKey`: cleanup, then forward scan, else earliest-expiry
fallback; `currentKeyIndex` is set to the returned index in both branches. -/
def getActiveKey (now : Nat) (st : RotatorState) : RotatorState × Nat :=
  let st1 := cleanupExpiredBlacklists now st
  match scanActive st1 with
  | some k => ({ st1 with currentKeyIndex := k }, k)
  | none =>
    let b := earliestBlacklisted st1
    ({ st1 with currentKeyIndex := b }, b)

/-- Source `getCurrentClient`: select the active key, then update its usage stats
(`lastUsed = Date.now()`, `requestCount++`) before returning the client. -/
def getCurrentClient (now : Nat) (st : RotatorState) : RotatorState × Nat :=
  let p := getActiveKey now st
  (updateStatus p.1 p.2
      (fun s => { s with lastUsed := some now, requestCount := s.requestCount + 1 }),
    p.2)

/-- Body of `moveToNextKey`'s do/while loop, with explicit fuel (the loop
advances at most `n` times before returning to `startIndex`). -/
def moveToNextKeyAux (start : Nat) : Nat → RotatorState → RotatorState
  | 0, st => st
  | fuel + 1, st =>
    let idx := (st.currentKeyIndex + 1) % st.statuses.length
    let st1 := { st with currentKeyIndex := idx }
    if (statusAt st1 idx).isBlacklisted = false then st1
    else if idx = start then st1
    else moveToNextKeyAux start fuel st1

/-- Source `moveToNextKey`: advance `currentKeyIndex` to the next non-blacklisted
key, stopping after one full wrap back to the starting index. -/
def moveToNextKey (st : RotatorState) : RotatorState :=
  moveToNextKeyAux st.currentKeyIndex st.statuses.length st

/-- Count of non-blacklisted records (the filter inside
`getAvailableKeysCount`). -/
def countActive (st : RotatorState) : Nat :=
  (st.statuses.filter fun s => s.isBlacklisted = false).length

/-- Source `getAvailableKeysCount`: runs a cleanup pass (a state mutation) and
returns the number of non-blacklisted keys. -/
def getAvailableKeysCount (now : Nat) (st : RotatorState) : RotatorState × Nat :=
  let st1 := cleanupExpiredBlacklists now st
  (st1, countActive st1)

/-- Source `blacklistCurrentKey`: blacklist the record at `currentKeyIndex` until
`now + blacklistDuration`; the following log line invokes
`getAvailableKeysCount`, i.e. another cleanup pass; then `moveToNextKey`. -/
def blacklistCurrentKey (now : Nat) (st : RotatorState) : RotatorState :=
  let st1 := updateStatus st st.currentKeyIndex fun s =>
    { s with isBlacklisted := true,
             blacklistedUntil := some (now + st.blacklistDuration) }
  let st2 := cleanupExpiredBlacklists now st1
  moveToNextKey st2

/-- A JavaScript error as seen by the classifiers: `message = error.message
|| error.toString() || ''`, `status = error.status || error.code || 0`. -/
structure JsError where
  message : String
  status : Nat
deriving Repr, DecidableEq

/-- Compute `needle.isPrefixOf hay || search the tail`: JavaScript
`String.prototype.includes` on explicit character lists. -/
def hasSubList (needle : List Char) : List Char → Bool
  | [] => needle.isPrefixOf []
  | c :: rest => needle.isPrefixOf (c :: rest) || hasSubList needle rest

/-- Evaluate `s.includes pat` (case-sensitive, like the source's `.includes`). -/
def strIncludes (s pat : String) : Bool := hasSubList pat.toList s.toList

/-- Source `isQuotaLimitError`: status 429 or one of three case-sensitive
substrings of the message. -/
def isQuotaLimitError (e : JsError) : Bool :=
  e.status == 429 ||
  strIncludes e.message "quota" ||
  strIncludes e.message "RESOURCE_EXHAUSTED" ||
  strIncludes e.message "exceeded your current quota"

/-- Source `isRateLimitError`: status 429 or 503 or one of three case-sensitive
substrings of the message. -/
def isRateLimitError (e : JsError) : Bool :=
  e.status == 429 ||
  e.status == 503 ||
  strIncludes e.message "rate limit" ||
  strIncludes e.message "Too Many Requests" ||
  strIncludes e.message "overloaded"

/-- Source `handleApiError`: on a quota/rate-limit classification, blacklist the
current key and signal a retry (`none`) when `retryAttempt <
apiKeys.length - 1` and a non-blacklisted key remains (the short-circuit
`&&` runs `hasAvailableKeys`'s cleanup pass only when the first conjunct
holds); in every other case the error is rethrown (`some e`). -/
def handleApiError (now : Nat) (e : JsError) (retryAttempt : Nat)
    (st : RotatorState) : RotatorState × Option JsError :=
  if isQuotaLimitError e || isRateLimitError e then
    let st1 := blacklistCurrentKey now st
    if retryAttempt < st1.statuses.length - 1 then
      let p := getAvailableKeysCount now st1
      if 0 < p.2 then (p.1, none) else (p.1, some e)
    else (st1, some e)
  else (st, some e)

/-- Loop body of `makeGeminiRequest`, recursing on the remaining attempts.
`requestFn attempt k` is the outcome of the upstream call of attempt number
`attempt` made with the client of key index `k`. Returns the final state,
the overall outcome (`Except.error none` models `throw lastError` with no
attempt made, i.e. `throw undefined`), and the number of upstream attempts
performed. -/
def makeGeminiRequestAux {α : Type} (requestFn : Nat → Nat → Except JsError α)
    (tFn : Nat → Nat) :
    Nat → Nat → Option JsError → RotatorState →
    RotatorState × Except (Option JsError) α × Nat
  | 0, _, lastError, st => (st, Except.error lastError, 0)
  | remaining + 1, attempt, _, st =>
    let now := tFn attempt
    let p := getCurrentClient now st
    match requestFn attempt p.2 with
    | Except.ok v => (p.1, Except.ok v, 1)
    | Except.error e =>
      match handleApiError now e attempt p.1 with
      | (st2, some e2) => (st2, Except.error (some e2), 1)
      | (st2, none) =>
        let r := makeGeminiRequestAux requestFn tFn remaining (attempt + 1) (some e) st2
        (r.1, r.2.1, r.2.2 + 1)

/-- Source `makeGeminiRequest(requestFn, maxRetries)`: up to `maxRetries` rounds of
select-call-classify, rethrowing either the error `handleApiError` threw or,
when the loop runs out, the last error seen. -/
def makeGeminiRequest {α : Type} (requestFn : Nat → Nat → Except JsError α)
    (tFn : Nat → Nat) (maxRetries : Nat) (st : RotatorState) :
    RotatorState × Except (Option JsError) α × Nat :=
  makeGeminiRequestAux requestFn tFn maxRetries 0 none st

/-- Per-key entry of the `getStatus` snapshot. -/
structure KeyStatusView where
  key : String
  isBlacklisted : Bool
  requestCount : Nat
  blacklistedUntil : Option Nat
deriving Repr, DecidableEq

/-- The `getStatus` snapshot object. -/
structure RotatorStatusView where
  totalKeys : Nat
  activeKeys : Nat
  blacklistedKeys : Nat
  currentKey : String
  keyStatuses : List KeyStatusView
deriving Repr, DecidableEq

/-- Mask a key: `key.substring(0, 8) + '...'`. -/
def maskKey (k : String) : String := (String.take k 8) ++ "..."

/-- Source `getStatus`: a cleanup pass, then the snapshot; `activeKeys` and
`blacklistedKeys` each invoke `getAvailableKeysCount` (two further cleanup
passes, in evaluation order of the object literal). -/
def getStatus (now : Nat) (st : RotatorState) : RotatorState × RotatorStatusView :=
  let st1 := cleanupExpiredBlacklists now st
  let p1 := getAvailableKeysCount now st1
  let p2 := getAvailableKeysCount now p1.1
  let st3 := p2.1
  (st3,
    { totalKeys := st3.statuses.length
      activeKeys := p1.2
      blacklistedKeys := st3.statuses.length - p2.2
      currentKey := maskKey (statusAt st3 st3.currentKeyIndex).key
      keyStatuses := st3.statuses.map fun s =>
        { key := maskKey s.key, isBlacklisted := s.isBlacklisted,
          requestCount := s.requestCount, blacklistedUntil := s.blacklistedUntil } })

/-- Source `resetAllKeys`: clear `isBlacklisted`, `blacklistedUntil` and
`requestCount` on every record. -/
def resetAllKeys (st : RotatorState) : RotatorState :=
  { st with statuses := st.statuses.map fun s =>
      { s with isBlacklisted := false, blacklistedUntil := none,
               requestCount := 0 } }

/-- The static fallback question lists of `getFallbackQuestion`
(src/src/lib/gemini.ts). -/
def beginnerFallbacks : List String :=
  ["What is the difference between a formula and a function in Excel?",
   "How do you create and use cell references in Excel?",
   "What are the different data types that Excel can handle?",
   "Explain the concept of relative vs absolute cell references."]

def intermediateFallbacks : List String :=
  ["Explain the key differences between VLOOKUP and INDEX-MATCH functions.",
   "What is the purpose and functionality of PivotTables in Excel?",
   "How do conditional formatting rules work in Excel?",
   "What are the advantages of using named ranges in Excel?"]

def advancedFallbacks : List String :=
  ["What are the advantages and limitations of using array formulas in Excel?",
   "How do you optimize Excel performance for large datasets?",
   "Explain the concept of volatile functions and their impact on workbook performance.",
   "What are the different ways to handle circular references in Excel?"]

/-- Source `getFallbackQuestion(difficulty, questionNumber)`: pick from the static
list for the difficulty (unknown difficulties fall back to intermediate) at
index `(questionNumber - 1) % length`. The route always passes
`questionNumber ≥ 1`, for which natural subtraction agrees with the
source's arithmetic. -/
def getFallbackQuestion (difficulty : String) (questionNumber : Nat) : String :=
  let questionSet :=
    if difficulty == "beginner" then beginnerFallbacks
    else if difficulty == "intermediate" then intermediateFallbacks
    else if difficulty == "advanced" then advancedFallbacks
    else intermediateFallbacks
  questionSet.getD ((questionNumber - 1) % questionSet.length) ""

/-- Dispatch skeleton of `generateInterviewQuestion` (src/src/lib/gemini.ts):
run `makeGeminiRequest` with the default `maxRetries`; on success return the
trimmed response text (or, when it is empty, the hard-coded default
question); on any thrown error return the canned fallback question — no
second upstream provider is consulted. Prompt construction and response
parsing are outside this subsystem (spec §1) and are represented by the
`requestFn`'s `String` result. The returned `Nat` is the number of upstream
attempts made. -/
def generateInterviewQuestion (requestFn : Nat → Nat → Except JsError String)
    (tFn : Nat → Nat) (difficulty : String) (questionNumber : Nat)
    (st : RotatorState) : RotatorState × String × Nat :=
  match makeGeminiRequest requestFn tFn defaultMaxRetries st with
  | (st1, Except.ok text, n) =>
    (st1,
      (if jsTrim text == "" then
        "What is the difference between VLOOKUP and INDEX-MATCH functions in Excel?"
      else jsTrim text), n)
  | (st1, Except.error _, n) => (st1, getFallbackQuestion difficulty questionNumber, n)

/-- Total number of requests recorded across the pool. -/
def totalRequests (st : RotatorState) : Nat :=
  (st.statuses.map fun s => s.requestCount).sum

/-! ### Helper lemmas: positional lookups and the cleanup pass -/

/-- The per-record action of `cleanupExpiredBlacklists`. -/
def cleanupRec (now : Nat) (s : ApiKeyStatus) : ApiKeyStatus :=
  if expiredFlag now s then
    { s with isBlacklisted := false, blacklistedUntil := none }
  else s

theorem cleanup_statuses_eq (now : Nat) (st : RotatorState) :
    (cleanupExpiredBlacklists now st).statuses = st.statuses.map (cleanupRec now) := by
  simp [cleanupExpiredBlacklists, cleanupRec]

theorem cleanupRec_dummy (now : Nat) : cleanupRec now dummyStatus = dummyStatus := by
  simp [cleanupRec, expiredFlag, dummyStatus]

theorem statusAt_cleanup (now : Nat) (st : RotatorState) (i : Nat) :
    statusAt (cleanupExpiredBlacklists now st) i = cleanupRec now (statusAt st i) := by
  unfold statusAt
  rw [cleanup_statuses_eq]
  rw [List.getD_eq_getElem?_getD, List.getD_eq_getElem?_getD, List.getElem?_map]
  cases h : st.statuses[i]? with
  | none => simp [cleanupRec_dummy]
  | some a => simp

theorem cleanup_length (now : Nat) (st : RotatorState) :
    (cleanupExpiredBlacklists now st).statuses.length = st.statuses.length := by
  rw [cleanup_statuses_eq]; simp

theorem cleanup_cur (now : Nat) (st : RotatorState) :
    (cleanupExpiredBlacklists now st).currentKeyIndex = st.currentKeyIndex := rfl

theorem cleanup_bd (now : Nat) (st : RotatorState) :
    (cleanupExpiredBlacklists now st).blacklistDuration = st.blacklistDuration := rfl

theorem cleanupRec_idem (now : Nat) (s : ApiKeyStatus) :
    cleanupRec now (cleanupRec now s) = cleanupRec now s := by
  unfold cleanupRec
  by_cases h : expiredFlag now s = true
  · simp only [h, if_pos]
    have : expiredFlag now { s with isBlacklisted := false, blacklistedUntil := none } = false := by
      simp [expiredFlag]
    simp [this]
  · simp only [Bool.not_eq_true] at h
    simp [h]

theorem cleanup_idem (now : Nat) (st : RotatorState) :
    cleanupExpiredBlacklists now (cleanupExpiredBlacklists now st)
      = cleanupExpiredBlacklists now st := by
  unfold cleanupExpiredBlacklists
  simp only [List.map_map]
  congr 1
  apply List.map_congr_left
  intro s _
  exact cleanupRec_idem now s

/-- Cleanup never blacklists a key; it can only clear flags. -/
theorem cleanupRec_no_new_blacklist (now : Nat) (s : ApiKeyStatus) :
    (cleanupRec now s).isBlacklisted = true → s.isBlacklisted = true := by
  unfold cleanupRec
  by_cases h : expiredFlag now s = true <;> simp [h]

theorem cleanupRec_requestCount (now : Nat) (s : ApiKeyStatus) :
    (cleanupRec now s).requestCount = s.requestCount := by
  unfold cleanupRec
  by_cases h : expiredFlag now s = true <;> simp [h]

theorem statusAt_update (st : RotatorState) (k : Nat) (f : ApiKeyStatus → ApiKeyStatus)
    (i : Nat) :
    statusAt (updateStatus st k f) i =
      if k = i ∧ k < st.statuses.length then f (statusAt st i) else statusAt st i := by
  unfold statusAt updateStatus
  simp only [List.getD_eq_getElem?_getD, List.getElem?_set]
  by_cases hk : k = i
  · subst hk
    by_cases hl : k < st.statuses.length
    · simp only [hl, if_pos, and_self, if_true, if_pos rfl]
      rw [List.getElem?_eq_getElem hl]
      rfl
    · simp only [hl, if_neg, if_pos rfl, and_false, if_false]
      have : st.statuses[k]? = none := by
        rw [List.getElem?_eq_none_iff]; omega
      simp [this]
  · simp [hk]

theorem update_length (st : RotatorState) (k : Nat) (f : ApiKeyStatus → ApiKeyStatus) :
    (updateStatus st k f).statuses.length = st.statuses.length := by
  unfold updateStatus; simp

theorem update_cur (st : RotatorState) (k : Nat) (f : ApiKeyStatus → ApiKeyStatus) :
    (updateStatus st k f).currentKeyIndex = st.currentKeyIndex := rfl

/-! ### Helper lemmas: the forward scan of `getActiveKey` -/

theorem findSome?_range_first {β : Type} {f : Nat → Option β} {n : Nat} {b : β}
    (h : (List.range n).findSome? f = some b) :
    ∃ i, i < n ∧ f i = some b ∧ ∀ j, j < i → f j = none := by
  induction n with
  | zero => simp [List.findSome?] at h
  | succ m ih =>
    rw [List.range_succ, List.findSome?_append] at h
    cases hm : (List.range m).findSome? f with
    | some c =>
      rw [hm] at h
      simp only [Option.or] at h
      obtain ⟨i, hi, hfi, hprev⟩ := ih (hm.trans h)
      exact ⟨i, Nat.lt_succ_of_lt hi, hfi, hprev⟩
    | none =>
      rw [hm] at h
      simp only [Option.or] at h
      simp only [List.findSome?_cons, List.findSome?_nil] at h
      refine ⟨m, Nat.lt_succ_self m, ?_, ?_⟩
      · cases hfm : f m with
        | none => rw [hfm] at h; cases h
        | some c => rw [hfm] at h; exact h
      · intro j hj
        have := List.findSome?_eq_none_iff.mp hm
        exact this j (List.mem_range.mpr hj)

/-- Every index below `n` is hit by the wrap-around scan order: there is an
offset `i < n` with `(c + i) % n = j`. -/
theorem exists_scan_offset (c j n : Nat) (hj : j < n) :
    ∃ i, i < n ∧ (c + i) % n = j := by
  have hn : 0 < n := Nat.lt_of_le_of_lt (Nat.zero_le j) hj
  have hcm : c % n < n := Nat.mod_lt c hn
  have hdm := Nat.div_add_mod c n
  by_cases hle : c % n ≤ j
  · refine ⟨j - c % n, by omega, ?_⟩
    have h2 : c + (j - c % n) = n * (c / n) + j := by omega
    rw [h2, Nat.mul_add_mod, Nat.mod_eq_of_lt hj]
  · refine ⟨n + j - c % n, by omega, ?_⟩
    have h3 : n * (c / n + 1) = n * (c / n) + n := by ring
    have h2 : c + (n + j - c % n) = n * (c / n + 1) + j := by omega
    rw [h2, Nat.mul_add_mod, Nat.mod_eq_of_lt hj]

/-- What a successful scan guarantees: an in-range, non-blacklisted index
reached by the first free offset from `currentKeyIndex`. -/
theorem scanActive_spec {st : RotatorState} {k : Nat} (h : scanActive st = some k) :
    k < st.statuses.length ∧ (statusAt st k).isBlacklisted = false ∧
      ∃ d, d < st.statuses.length ∧
        k = (st.currentKeyIndex + d) % st.statuses.length ∧
        ∀ d', d' < d →
          (statusAt st ((st.currentKeyIndex + d') % st.statuses.length)).isBlacklisted
            = true := by
  obtain ⟨i, hi, hfi, hprev⟩ := findSome?_range_first h
  have hn : 0 < st.statuses.length := Nat.lt_of_le_of_lt (Nat.zero_le i) hi
  simp only at hfi
  by_cases hb :
      (statusAt st ((st.currentKeyIndex + i) % st.statuses.length)).isBlacklisted = false
  · rw [if_pos hb] at hfi
    have hk : k = (st.currentKeyIndex + i) % st.statuses.length :=
      (Option.some_inj.mp hfi).symm
    subst hk
    refine ⟨Nat.mod_lt _ hn, hb, i, hi, rfl, ?_⟩
    intro d' hd'
    have := hprev d' hd'
    simp only at this
    by_cases hb' :
        (statusAt st ((st.currentKeyIndex + d') % st.statuses.length)).isBlacklisted = false
    · rw [if_pos hb'] at this; cases this
    · simpa using hb'
  · rw [if_neg hb] at hfi; cases hfi

/-- A scan failure means every in-range key is blacklisted. -/
theorem scanActive_none {st : RotatorState} (h : scanActive st = none) :
    ∀ j, j < st.statuses.length → (statusAt st j).isBlacklisted = true := by
  intro j hj
  obtain ⟨i, hi, hoff⟩ := exists_scan_offset st.currentKeyIndex j st.statuses.length hj
  have := List.findSome?_eq_none_iff.mp h i (List.mem_range.mpr hi)
  simp only at this
  rw [hoff] at this
  by_cases hb : (statusAt st j).isBlacklisted = false
  · rw [if_pos hb] at this; cases this
  · simpa using hb

/-- Conversely, if every key is blacklisted the scan fails. -/
theorem scanActive_none_of_all {st : RotatorState}
    (h : ∀ j, j < st.statuses.length → (statusAt st j).isBlacklisted = true) :
    scanActive st = none := by
  apply List.findSome?_eq_none_iff.mpr
  intro i hi
  have hi' := List.mem_range.mp hi
  have hn : 0 < st.statuses.length := Nat.lt_of_le_of_lt (Nat.zero_le i) hi'
  have hk : (st.currentKeyIndex + i) % st.statuses.length < st.statuses.length :=
    Nat.mod_lt _ hn
  simp only
  rw [if_neg]
  rw [h _ hk]
  simp

/-! ### Helper lemmas: the earliest-expiry fold of `getActiveKey` -/

/-- The step of the `forEach` fold that finds the earliest-expiring
blacklisted key. -/
def ebStep (acc : Option Nat × Nat) (p : Nat × ApiKeyStatus) : Option Nat × Nat :=
  match p.2.blacklistedUntil with
  | none => acc
  | some u =>
    if u != 0 && (match acc.1 with
        | none => true
        | some e => decide (u < e)) then
      (some u, p.1)
    else acc

theorem earliestBlacklisted_eq_fold (st : RotatorState) :
    earliestBlacklisted st
      = (st.statuses.enum.foldl ebStep ((none : Option Nat), 0)).2 := rfl

/-- Fold invariant: over the processed prefix `seen`, the accumulator is
either untouched (no truthy expiry seen) or holds the value and position of
the first record attaining the minimum truthy expiry. -/
def EbInv (seen : List ApiKeyStatus) (acc : Option Nat × Nat) : Prop :=
  (acc = ((none : Option Nat), 0) ∧
    ∀ s ∈ seen, untilTruthy s.blacklistedUntil = false)
  ∨ (∃ m, acc.1 = some m ∧ acc.2 < seen.length ∧
      (seen.getD acc.2 dummyStatus).blacklistedUntil = some m ∧ m ≠ 0 ∧
      (∀ j, j < seen.length → ∀ u,
        (seen.getD j dummyStatus).blacklistedUntil = some u → u ≠ 0 → m ≤ u) ∧
      (∀ j, j < acc.2 → ∀ u,
        (seen.getD j dummyStatus).blacklistedUntil = some u → u ≠ 0 → m < u))

theorem getD_append_lt {α : Type} (l : List α) (r : α) (j : Nat) (hj : j < l.length)
    (d : α) : (l ++ [r]).getD j d = l.getD j d := by
  rw [List.getD_eq_getElem?_getD, List.getD_eq_getElem?_getD,
    List.getElem?_append_left hj]

theorem getD_append_len {α : Type} (l : List α) (r : α) (d : α) :
    (l ++ [r]).getD l.length d = r := by
  rw [List.getD_eq_getElem?_getD]
  rw [List.getElem?_append_right (Nat.le_refl _)]
  simp

theorem ebInv_step (seen : List ApiKeyStatus) (acc : Option Nat × Nat)
    (r : ApiKeyStatus) (h : EbInv seen acc) :
    EbInv (seen ++ [r]) (ebStep acc (seen.length, r)) := by
  have hlen : (seen ++ [r]).length = seen.length + 1 := by simp
  cases hbu : r.blacklistedUntil with
  | none =>
    have hstep : ebStep acc (seen.length, r) = acc := by
      simp [ebStep, hbu]
    rw [hstep]
    rcases h with ⟨hacc, hall⟩ | ⟨m, hm, hlt, hget, hne, hmin, hstrict⟩
    · left
      refine ⟨hacc, ?_⟩
      intro s hs
      rcases List.mem_append.mp hs with hs | hs
      · exact hall s hs
      · have : s = r := by simpa using hs
        subst this
        simp [untilTruthy, hbu]
    · right
      refine ⟨m, hm, by omega, ?_, hne, ?_, ?_⟩
      · rw [getD_append_lt _ _ _ hlt]; exact hget
      · intro j hj u hu hune
        rcases Nat.lt_or_ge j seen.length with hj' | hj'
        · rw [getD_append_lt _ _ _ hj'] at hu
          exact hmin j hj' u hu hune
        · have hj'' : j = seen.length := by omega
          subst hj''
          rw [getD_append_len] at hu
          rw [hbu] at hu; cases hu
      · intro j hj u hu hune
        have hj' : j < seen.length := by omega
        rw [getD_append_lt _ _ _ hj'] at hu
        exact hstrict j hj u hu hune
  | some u =>
    by_cases hcond :
        (u != 0 && (match acc.1 with
          | none => true
          | some e => decide (u < e))) = true
    · have hstep : ebStep acc (seen.length, r) = (some u, seen.length) := by
        simp only [ebStep, hbu]
        rw [if_pos hcond]
      rw [hstep]
      have hune : u ≠ 0 := by
        have hc := hcond
        rw [Bool.and_eq_true] at hc
        simpa using hc.1
      right
      refine ⟨u, rfl, by omega, ?_, hune, ?_, ?_⟩
      · show ((seen ++ [r]).getD seen.length dummyStatus).blacklistedUntil = some u
        rw [getD_append_len]; exact hbu
      · intro j hj v hv hvne
        rcases Nat.lt_or_ge j seen.length with hj' | hj'
        · rw [getD_append_lt _ _ _ hj'] at hv
          rcases h with ⟨hacc, hall⟩ | ⟨m, hm, hlt, hget, hne, hmin, hstrict⟩
          · exfalso
            have hmem : seen.getD j dummyStatus ∈ seen := by
              rw [List.getD_eq_getElem?_getD, List.getElem?_eq_getElem hj']
              exact List.getElem_mem hj'
            have := hall _ hmem
            rw [hv] at this
            simp [untilTruthy] at this
            exact hvne this
          · have hc := hcond
            rw [Bool.and_eq_true] at hc
            have h2 := hc.2
            rw [hm] at h2
            have hum : u < m := by simpa using h2
            have := hmin j hj' v hv hvne
            omega
        · have hj'' : j = seen.length := by omega
          subst hj''
          rw [getD_append_len] at hv
          rw [hbu] at hv
          cases hv
          exact Nat.le_refl u
      · intro j hj v hv hvne
        have hj' : j < seen.length := hj
        rw [getD_append_lt _ _ _ hj'] at hv
        rcases h with ⟨hacc, hall⟩ | ⟨m, hm, hlt, hget, hne, hmin, hstrict⟩
        · exfalso
          have hmem : seen.getD j dummyStatus ∈ seen := by
            rw [List.getD_eq_getElem?_getD, List.getElem?_eq_getElem hj']
            exact List.getElem_mem hj'
          have := hall _ hmem
          rw [hv] at this
          simp [untilTruthy] at this
          exact hvne this
        · have hc := hcond
          rw [Bool.and_eq_true] at hc
          have h2 := hc.2
          rw [hm] at h2
          have hum : u < m := by simpa using h2
          have := hmin j hj' v hv hvne
          omega
    · have hstep : ebStep acc (seen.length, r) = acc := by
        simp only [ebStep, hbu]
        rw [if_neg hcond]
      rw [hstep]
      rcases h with ⟨hacc, hall⟩ | ⟨m, hm, hlt, hget, hne, hmin, hstrict⟩
      · left
        refine ⟨hacc, ?_⟩
        intro s hs
        rcases List.mem_append.mp hs with hs | hs
        · exact hall s hs
        · have : s = r := by simpa using hs
          subst this
          have hu0 : u = 0 := by
            by_contra hu0
            apply hcond
            rw [hacc]
            simp only [Bool.and_eq_true]
            constructor
            · simpa using hu0
            · trivial
          simp [untilTruthy, hbu, hu0]
      · right
        refine ⟨m, hm, by omega, ?_, hne, ?_, ?_⟩
        · rw [getD_append_lt _ _ _ hlt]; exact hget
        · intro j hj v hv hvne
          rcases Nat.lt_or_ge j seen.length with hj' | hj'
          · rw [getD_append_lt _ _ _ hj'] at hv
            exact hmin j hj' v hv hvne
          · have hj'' : j = seen.length := by omega
            subst hj''
            rw [getD_append_len] at hv
            rw [hbu] at hv
            cases hv
            by_contra hmu
            apply hcond
            rw [hm]
            simp only [Bool.and_eq_true]
            constructor
            · simpa using hvne
            · simp only [decide_eq_true_eq]
              omega
        · intro j hj v hv hvne
          have hj' : j < seen.length := by omega
          rw [getD_append_lt _ _ _ hj'] at hv
          exact hstrict j hj v hv hvne

theorem ebFold_inv (rest : List ApiKeyStatus) :
    ∀ (seen : List ApiKeyStatus) (acc : Option Nat × Nat), EbInv seen acc →
      EbInv (seen ++ rest) ((List.enumFrom seen.length rest).foldl ebStep acc) := by
  induction rest with
  | nil => intro seen acc h; simpa using h
  | cons r rest' ih =>
    intro seen acc h
    rw [List.enumFrom_cons, List.foldl_cons]
    have hstep := ebInv_step seen acc r h
    have := ih (seen ++ [r]) (ebStep acc (seen.length, r)) hstep
    rw [List.length_append] at this
    simpa [List.append_assoc] using this

theorem ebInv_result (st : RotatorState) :
    EbInv st.statuses (st.statuses.enum.foldl ebStep ((none : Option Nat), 0)) := by
  have h0 : EbInv [] ((none : Option Nat), 0) :=
    Or.inl ⟨rfl, by intro s hs; cases hs⟩
  have h := ebFold_inv st.statuses [] ((none : Option Nat), 0) h0
  simpa [List.enum] using h

theorem earliestBlacklisted_lt (st : RotatorState) (hn : 0 < st.statuses.length) :
    earliestBlacklisted st < st.statuses.length := by
  have h := ebInv_result st
  rw [earliestBlacklisted_eq_fold]
  rcases h with ⟨hacc, _⟩ | ⟨m, _, hlt, _⟩
  · rw [hacc]; exact hn
  · exact hlt

/-- When every key has a truthy expiry, the fold returns the position of the
first record attaining the minimum `blacklistedUntil`. -/
theorem earliestBlacklisted_spec (st : RotatorState) (hn : 0 < st.statuses.length)
    (hall : ∀ j, j < st.statuses.length →
      untilTruthy (statusAt st j).blacklistedUntil = true) :
    earliestBlacklisted st < st.statuses.length ∧
    ∃ m, (statusAt st (earliestBlacklisted st)).blacklistedUntil = some m ∧
      (∀ j, j < st.statuses.length → ∀ u,
        (statusAt st j).blacklistedUntil = some u → m ≤ u) ∧
      (∀ j, j < earliestBlacklisted st → ∀ u,
        (statusAt st j).blacklistedUntil = some u → m < u) := by
  have h := ebInv_result st
  have hne0 : ∀ j, j < st.statuses.length → ∀ u,
      (statusAt st j).blacklistedUntil = some u → u ≠ 0 := by
    intro j hj u hu
    have := hall j hj
    rw [hu] at this
    simpa [untilTruthy] using this
  rcases h with ⟨hacc, hallfalse⟩ | ⟨m, hm, hlt, hget, hncm, hmin, hstrict⟩
  · exfalso
    have hmem : st.statuses.getD 0 dummyStatus ∈ st.statuses := by
      rw [List.getD_eq_getElem?_getD, List.getElem?_eq_getElem hn]
      exact List.getElem_mem hn
    have hfalse := hallfalse _ hmem
    have htrue := hall 0 hn
    unfold statusAt at htrue
    rw [htrue] at hfalse
    cases hfalse
  · have heb : earliestBlacklisted st
        = (st.statuses.enum.foldl ebStep ((none : Option Nat), 0)).2 :=
      earliestBlacklisted_eq_fold st
    refine ⟨heb ▸ hlt, m, ?_, ?_, ?_⟩
    · rw [heb]; exact hget
    · intro j hj u hu
      exact hmin j hj u hu (hne0 j hj u hu)
    · intro j hj u hu
      rw [heb] at hj
      exact hstrict j hj u hu (hne0 j (by omega) u hu)

/-! ### Helper lemmas: selection, rotation and bookkeeping -/

theorem statusAt_eq_getElem {st : RotatorState} {k : Nat} (hk : k < st.statuses.length) :
    statusAt st k = st.statuses[k] := by
  unfold statusAt
  rw [List.getD_eq_getElem?_getD, List.getElem?_eq_getElem hk]
  rfl

theorem getActiveKey_fst_statuses (now : Nat) (st : RotatorState) :
    (getActiveKey now st).1.statuses = (cleanupExpiredBlacklists now st).statuses := by
  unfold getActiveKey
  dsimp only
  cases hscan : scanActive (cleanupExpiredBlacklists now st) <;> simp [hscan]

theorem getActiveKey_fst_cur (now : Nat) (st : RotatorState) :
    (getActiveKey now st).1.currentKeyIndex = (getActiveKey now st).2 := by
  unfold getActiveKey
  dsimp only
  cases hscan : scanActive (cleanupExpiredBlacklists now st) <;> simp [hscan]

theorem getActiveKey_fst_bd (now : Nat) (st : RotatorState) :
    (getActiveKey now st).1.blacklistDuration = st.blacklistDuration := by
  unfold getActiveKey
  dsimp only
  cases hscan : scanActive (cleanupExpiredBlacklists now st) <;> simp [hscan, cleanup_bd]

theorem getActiveKey_lt (now : Nat) (st : RotatorState) (hn : 0 < st.statuses.length) :
    (getActiveKey now st).2 < st.statuses.length := by
  unfold getActiveKey
  dsimp only
  have hlen := cleanup_length now st
  cases hscan : scanActive (cleanupExpiredBlacklists now st) with
  | some k =>
    have := (scanActive_spec hscan).1
    simpa [hscan, hlen] using this
  | none =>
    have := earliestBlacklisted_lt (cleanupExpiredBlacklists now st) (by omega)
    simpa [hscan, hlen] using this

/-- If any key survives cleanup, the selected key is a non-blacklisted one
(the degraded all-blacklisted branch is not taken). -/
theorem getActiveKey_selects_active (now : Nat) (st : RotatorState)
    (hex : ∃ j, j < st.statuses.length ∧
      (statusAt (cleanupExpiredBlacklists now st) j).isBlacklisted = false) :
    (statusAt (cleanupExpiredBlacklists now st) (getActiveKey now st).2).isBlacklisted
      = false := by
  unfold getActiveKey
  dsimp only
  cases hscan : scanActive (cleanupExpiredBlacklists now st) with
  | some k =>
    have := (scanActive_spec hscan).2.1
    simpa [hscan] using this
  | none =>
    exfalso
    obtain ⟨j, hj, hbl⟩ := hex
    have := scanActive_none hscan j (by rw [cleanup_length]; exact hj)
    rw [this] at hbl
    cases hbl

theorem moveToNextKeyAux_statuses (start fuel : Nat) (st : RotatorState) :
    (moveToNextKeyAux start fuel st).statuses = st.statuses := by
  induction fuel generalizing st with
  | zero => rfl
  | succ m ih =>
    unfold moveToNextKeyAux
    dsimp only
    split
    · rfl
    · split
      · rfl
      · exact ih _

theorem moveToNextKeyAux_bd (start fuel : Nat) (st : RotatorState) :
    (moveToNextKeyAux start fuel st).blacklistDuration = st.blacklistDuration := by
  induction fuel generalizing st with
  | zero => rfl
  | succ m ih =>
    unfold moveToNextKeyAux
    dsimp only
    split
    · rfl
    · split
      · rfl
      · exact ih _

theorem moveToNextKeyAux_cur_lt (start fuel : Nat) (st : RotatorState)
    (hn : 0 < st.statuses.length) (hcur : st.currentKeyIndex < st.statuses.length) :
    (moveToNextKeyAux start fuel st).currentKeyIndex < st.statuses.length := by
  induction fuel generalizing st with
  | zero => exact hcur
  | succ m ih =>
    unfold moveToNextKeyAux
    dsimp only
    split
    · exact Nat.mod_lt _ hn
    · split
      · exact Nat.mod_lt _ hn
      · have := ih { st with currentKeyIndex := (st.currentKeyIndex + 1) % st.statuses.length }
          hn (Nat.mod_lt _ hn)
        simpa using this

theorem moveToNextKey_statuses (st : RotatorState) :
    (moveToNextKey st).statuses = st.statuses :=
  moveToNextKeyAux_statuses _ _ _

theorem moveToNextKey_bd (st : RotatorState) :
    (moveToNextKey st).blacklistDuration = st.blacklistDuration :=
  moveToNextKeyAux_bd _ _ _

theorem moveToNextKeyAux_cur_lt1 (start fuel : Nat) (st : RotatorState)
    (hn : 0 < st.statuses.length) :
    (moveToNextKeyAux start (fuel + 1) st).currentKeyIndex < st.statuses.length := by
  unfold moveToNextKeyAux
  dsimp only
  split
  · exact Nat.mod_lt _ hn
  · split
    · exact Nat.mod_lt _ hn
    · have := moveToNextKeyAux_cur_lt start fuel
        { st with currentKeyIndex := (st.currentKeyIndex + 1) % st.statuses.length }
        (by simpa using hn) (by simpa using Nat.mod_lt (st.currentKeyIndex + 1) hn)
      simpa using this

theorem moveToNextKey_cur_lt (st : RotatorState) (hn : 0 < st.statuses.length) :
    (moveToNextKey st).currentKeyIndex < st.statuses.length := by
  have hm : st.statuses.length - 1 + 1 = st.statuses.length := by omega
  have h := moveToNextKeyAux_cur_lt1 st.currentKeyIndex (st.statuses.length - 1) st hn
  rw [hm] at h
  exact h

/-- Running `handleApiError` on an error classified neither quota nor rate-limit:
no state change, the error is rethrown. -/
theorem handleApiError_other (now : Nat) (e : JsError) (a : Nat) (st : RotatorState)
    (hq : isQuotaLimitError e = false) (hr : isRateLimitError e = false) :
    handleApiError now e a st = (st, some e) := by
  unfold handleApiError
  rw [hq, hr]
  rfl

/-! ### Helper lemmas: request counters -/

theorem sum_map_set (L : List ApiKeyStatus) (k : Nat) (a : ApiKeyStatus)
    (hk : k < L.length) (f : ApiKeyStatus → Nat) :
    ((L.set k a).map f).sum + f L[k] = (L.map f).sum + f a := by
  rw [List.map_set, List.sum_set]
  have hk' : k < (L.map f).length := by simpa using hk
  rw [if_pos hk']
  have hdecomp : (List.take k (L.map f)).sum + (List.drop k (L.map f)).sum
      = (L.map f).sum := List.sum_take_add_sum_drop _ _
  rw [List.drop_eq_getElem_cons hk'] at hdecomp
  rw [List.sum_cons] at hdecomp
  have hget : (L.map f)[k] = f L[k] := by simp
  rw [hget] at hdecomp
  omega

theorem totalRequests_update_same (st : RotatorState) (k : Nat)
    (f : ApiKeyStatus → ApiKeyStatus)
    (hf : (f (statusAt st k)).requestCount = (statusAt st k).requestCount) :
    totalRequests (updateStatus st k f) = totalRequests st := by
  rcases Nat.lt_or_ge k st.statuses.length with hk | hk
  · have hgd : st.statuses.getD k dummyStatus = st.statuses[k] := statusAt_eq_getElem hk
    have hst : (updateStatus st k f).statuses = st.statuses.set k (f st.statuses[k]) := by
      unfold updateStatus
      rw [hgd]
    unfold totalRequests
    rw [hst]
    have h2 := sum_map_set st.statuses k (f st.statuses[k]) hk (fun s => s.requestCount)
    have hrc : (f st.statuses[k]).requestCount = st.statuses[k].requestCount := by
      rw [← statusAt_eq_getElem hk]
      exact hf
    omega
  · unfold totalRequests updateStatus
    rw [List.set_eq_of_length_le hk]

theorem totalRequests_update_incr (st : RotatorState) (k : Nat)
    (f : ApiKeyStatus → ApiKeyStatus) (hk : k < st.statuses.length)
    (hf : (f (statusAt st k)).requestCount = (statusAt st k).requestCount + 1) :
    totalRequests (updateStatus st k f) = totalRequests st + 1 := by
  have hgd : st.statuses.getD k dummyStatus = st.statuses[k] := statusAt_eq_getElem hk
  have hst : (updateStatus st k f).statuses = st.statuses.set k (f st.statuses[k]) := by
    unfold updateStatus
    rw [hgd]
  unfold totalRequests
  rw [hst]
  have h2 := sum_map_set st.statuses k (f st.statuses[k]) hk (fun s => s.requestCount)
  have hrc : (f st.statuses[k]).requestCount = st.statuses[k].requestCount + 1 := by
    rw [← statusAt_eq_getElem hk]
    exact hf
  omega

theorem totalRequests_cleanup (now : Nat) (st : RotatorState) :
    totalRequests (cleanupExpiredBlacklists now st) = totalRequests st := by
  unfold totalRequests
  rw [cleanup_statuses_eq, List.map_map]
  congr 1
  apply List.map_congr_left
  intro s _
  exact cleanupRec_requestCount now s

theorem totalRequests_move (st : RotatorState) :
    totalRequests (moveToNextKey st) = totalRequests st := by
  unfold totalRequests
  rw [moveToNextKey_statuses]

theorem totalRequests_blacklist (now : Nat) (st : RotatorState) :
    totalRequests (blacklistCurrentKey now st) = totalRequests st := by
  unfold blacklistCurrentKey
  dsimp only
  rw [totalRequests_move, totalRequests_cleanup]
  apply totalRequests_update_same
  rfl

theorem totalRequests_handleApiError (now : Nat) (e : JsError) (a : Nat)
    (st : RotatorState) :
    totalRequests (handleApiError now e a st).1 = totalRequests st := by
  unfold handleApiError
  dsimp only
  split
  · split
    · dsimp only [getAvailableKeysCount]
      split <;>
        simp [totalRequests_cleanup, totalRequests_blacklist]
    · rw [totalRequests_blacklist]
  · rfl

theorem totalRequests_getCurrentClient (now : Nat) (st : RotatorState)
    (hn : 0 < st.statuses.length) :
    totalRequests (getCurrentClient now st).1 = totalRequests st + 1 := by
  unfold getCurrentClient
  dsimp only
  have hk : (getActiveKey now st).2 < (getActiveKey now st).1.statuses.length := by
    rw [getActiveKey_fst_statuses, cleanup_length]
    exact getActiveKey_lt now st hn
  rw [totalRequests_update_incr _ _ _ hk rfl]
  have h2 : totalRequests (getActiveKey now st).1
      = totalRequests (cleanupExpiredBlacklists now st) := by
    unfold totalRequests
    rw [getActiveKey_fst_statuses]
  rw [h2, totalRequests_cleanup]

theorem getCurrentClient_length (now : Nat) (st : RotatorState) :
    (getCurrentClient now st).1.statuses.length = st.statuses.length := by
  unfold getCurrentClient
  dsimp only
  rw [update_length, getActiveKey_fst_statuses, cleanup_length]

theorem blacklist_length (now : Nat) (st : RotatorState) :
    (blacklistCurrentKey now st).statuses.length = st.statuses.length := by
  unfold blacklistCurrentKey
  dsimp only
  rw [moveToNextKey_statuses, cleanup_length, update_length]

theorem handleApiError_length (now : Nat) (e : JsError) (a : Nat) (st : RotatorState) :
    (handleApiError now e a st).1.statuses.length = st.statuses.length := by
  unfold handleApiError
  dsimp only
  split
  · split
    · dsimp only [getAvailableKeysCount]
      split <;> rw [cleanup_length, blacklist_length]
    · rw [blacklist_length]
  · rfl

theorem mkAux_attempts_le {α : Type} (rf : Nat → Nat → Except JsError α)
    (tFn : Nat → Nat) (fuel att : Nat) (le : Option JsError) (st : RotatorState) :
    (makeGeminiRequestAux rf tFn fuel att le st).2.2 ≤ fuel := by
  induction fuel generalizing att le st with
  | zero => exact Nat.le_refl 0
  | succ m ih =>
    unfold makeGeminiRequestAux
    dsimp only
    cases rf att (getCurrentClient (tFn att) st).2 with
    | ok v => exact Nat.le_add_left 1 m
    | error e =>
      dsimp only
      rcases hh : handleApiError (tFn att) e att (getCurrentClient (tFn att) st).1
        with ⟨st2, thrown⟩
      cases thrown with
      | some e2 => dsimp only; omega
      | none =>
        dsimp only
        have := ih (att + 1) (some e) st2
        omega

theorem mkAux_totalRequests {α : Type} (rf : Nat → Nat → Except JsError α)
    (tFn : Nat → Nat) (fuel : Nat) :
    ∀ (att : Nat) (le : Option JsError) (st : RotatorState), 0 < st.statuses.length →
      totalRequests (makeGeminiRequestAux rf tFn fuel att le st).1
        = totalRequests st + (makeGeminiRequestAux rf tFn fuel att le st).2.2 := by
  induction fuel with
  | zero => intro att le st _; rfl
  | succ m ih =>
    intro att le st hn
    unfold makeGeminiRequestAux
    dsimp only
    cases rf att (getCurrentClient (tFn att) st).2 with
    | ok v =>
      dsimp only
      rw [totalRequests_getCurrentClient _ _ hn]
    | error e =>
      dsimp only
      rcases hh : handleApiError (tFn att) e att (getCurrentClient (tFn att) st).1
        with ⟨st2, thrown⟩
      have hrq : totalRequests st2 = totalRequests st + 1 := by
        have h1 := totalRequests_handleApiError (tFn att) e att
          (getCurrentClient (tFn att) st).1
        rw [hh] at h1
        dsimp only at h1
        rw [h1, totalRequests_getCurrentClient _ _ hn]
      have hlen2 : st2.statuses.length = st.statuses.length := by
        have h1 := handleApiError_length (tFn att) e att (getCurrentClient (tFn att) st).1
        rw [hh] at h1
        dsimp only at h1
        rw [h1, getCurrentClient_length]
      cases thrown with
      | some e2 =>
        dsimp only
        omega
      | none =>
        dsimp only
        have := ih (att + 1) (some e) st2 (by omega)
        omega

/-! ### Concrete fixtures for witnesses and counterexamples -/

/-- A representative upstream quota error (status 429). -/
def quotaErr : JsError :=
  { message := "You exceeded your current quota, please check your plan and billing details.",
    status := 429 }

/-- A representative fatal, non-quota, non-rate-limit error. -/
def fatalErr : JsError := { message := "Invalid request format", status := 400 }

/-- A request function whose upstream call always fails with a quota error. -/
def alwaysQuotaFn : Nat → Nat → Except JsError String :=
  fun _ _ => Except.error quotaErr

/-- A request function whose upstream call always fails fatally. -/
def alwaysFatalFn : Nat → Nat → Except JsError String :=
  fun _ _ => Except.error fatalErr

/-- A constant wall clock. -/
def constClock : Nat → Nat := fun _ => 1000

/-- A fresh (never used, never blacklisted) key record. -/
def freshStatus (k : String) : ApiKeyStatus :=
  { key := k, isBlacklisted := false, blacklistedUntil := none,
    lastUsed := none, requestCount := 0 }

/-- A fresh pool over the given keys, as the constructor builds it. -/
def freshPool (ks : List String) : RotatorState :=
  { statuses := ks.map freshStatus, currentKeyIndex := 0,
    blacklistDuration := blacklistDurationDefault }

/-! ### Claim theorems -/

/-- C7: for every requestFn — including ones that always fail — a single
`makeGeminiRequest` invocation performs at most `maxRetries` upstream
calls, and the question pipeline (whose only provider is the Gemini pool;
the canned fallback performs no upstream call) performs at most the default
`maxRetries = 3`: the retry loop is bounded and terminates. -/
theorem execute_attempts_bounded {α : Type} (requestFn : Nat → Nat → Except JsError α)
    (tFn : Nat → Nat) (maxRetries : Nat) (st : RotatorState) :
    (makeGeminiRequest requestFn tFn maxRetries st).2.2 ≤ maxRetries
    ∧ ∀ (difficulty : String) (qn : Nat) (rf : Nat → Nat → Except JsError String),
        (generateInterviewQuestion rf tFn difficulty qn st).2.2 ≤ defaultMaxRetries := by
  constructor
  · exact mkAux_attempts_le requestFn tFn maxRetries 0 none st
  · intro difficulty qn rf
    unfold generateInterviewQuestion
    have hb := mkAux_attempts_le rf tFn defaultMaxRetries 0 none st
    rcases hres : makeGeminiRequest rf tFn defaultMaxRetries st with ⟨st1, res, n⟩
    have hn : n ≤ defaultMaxRetries := by
      have : (makeGeminiRequest rf tFn defaultMaxRetries st).2.2 = n := by rw [hres]
      rw [← this]
      exact hb
    cases res <;> simpa using hn

/-- C8: `resetAllKeys` is idempotent — applying it twice to any pool state
yields exactly the state produced by applying it once. -/
theorem resetAll_idempotent (st : RotatorState) :
    resetAllKeys (resetAllKeys st) = resetAllKeys st := by
  unfold resetAllKeys
  dsimp only
  congr 1
  rw [List.map_map]
  apply List.map_congr_left
  intro s _
  rfl

/-- C5: when the first upstream call fails with an error classified neither
quota nor rate-limit, `makeGeminiRequest` performs exactly one attempt,
propagates that error, changes no blacklist field beyond the selection-time
cleanup, and never newly blacklists a key. -/
theorem fatal_error_single_attempt {α : Type} (rf : Nat → Nat → Except JsError α)
    (tFn : Nat → Nat) (mr : Nat) (st : RotatorState) (e : JsError)
    (hmr : 0 < mr)
    (hrf : rf 0 (getCurrentClient (tFn 0) st).2 = Except.error e)
    (hq : isQuotaLimitError e = false) (hr : isRateLimitError e = false) :
    makeGeminiRequest rf tFn mr st
      = ((getCurrentClient (tFn 0) st).1, Except.error (some e), 1)
    ∧ (∀ i, (statusAt (getCurrentClient (tFn 0) st).1 i).isBlacklisted
          = (statusAt (cleanupExpiredBlacklists (tFn 0) st) i).isBlacklisted
        ∧ (statusAt (getCurrentClient (tFn 0) st).1 i).blacklistedUntil
          = (statusAt (cleanupExpiredBlacklists (tFn 0) st) i).blacklistedUntil)
    ∧ (∀ i, (statusAt (getCurrentClient (tFn 0) st).1 i).isBlacklisted = true
        → (statusAt st i).isBlacklisted = true) := by
  have hstat : ∀ i, (statusAt (getCurrentClient (tFn 0) st).1 i).isBlacklisted
        = (statusAt (cleanupExpiredBlacklists (tFn 0) st) i).isBlacklisted
      ∧ (statusAt (getCurrentClient (tFn 0) st).1 i).blacklistedUntil
        = (statusAt (cleanupExpiredBlacklists (tFn 0) st) i).blacklistedUntil := by
    intro i
    have hsa : ∀ j, statusAt (getActiveKey (tFn 0) st).1 j
        = statusAt (cleanupExpiredBlacklists (tFn 0) st) j := by
      intro j
      unfold statusAt
      rw [getActiveKey_fst_statuses]
    unfold getCurrentClient
    dsimp only
    rw [statusAt_update]
    split
    · rw [hsa]
      exact ⟨rfl, rfl⟩
    · rw [hsa]
      exact ⟨rfl, rfl⟩
  refine ⟨?_, hstat, ?_⟩
  · rcases Nat.exists_eq_succ_of_ne_zero (Nat.pos_iff_ne_zero.mp hmr) with ⟨m, hm⟩
    rw [hm]
    unfold makeGeminiRequest makeGeminiRequestAux
    dsimp only
    rw [hrf]
    dsimp only
    rw [handleApiError_other _ _ _ _ hq hr]
  · intro i hbl
    rw [(hstat i).1, statusAt_cleanup] at hbl
    exact cleanupRec_no_new_blacklist _ _ hbl

/-- Witness for C5 at Scenario C: one provider, one key, a fatal error —
one attempt, error propagated, key not blacklisted. -/
theorem fatal_error_single_attempt_witness :
    makeGeminiRequest alwaysFatalFn constClock 3 (freshPool ["k1"])
      = ((getCurrentClient (constClock 0) (freshPool ["k1"])).1,
          Except.error (some fatalErr), 1)
    ∧ (statusAt (makeGeminiRequest alwaysFatalFn constClock 3 (freshPool ["k1"])).1 0).isBlacklisted
        = false := by
  have h := fatal_error_single_attempt alwaysFatalFn constClock 3 (freshPool ["k1"])
    fatalErr (by decide) rfl (by decide) (by decide)
  refine ⟨h.1, ?_⟩
  rw [h.1]
  have := (h.2.1 0).1
  rw [this]
  decide

/-! ### C6: error classification -/

theorem isPrefixOf_iff_exists (p l : List Char) :
    p.isPrefixOf l = true ↔ ∃ t, l = p ++ t := by
  induction p generalizing l with
  | nil =>
    simp [List.isPrefixOf]
  | cons a p ih =>
    cases l with
    | nil =>
      simp [List.isPrefixOf]
    | cons b l =>
      simp only [List.isPrefixOf, Bool.and_eq_true, beq_iff_eq]
      constructor
      · rintro ⟨hab, hp⟩
        obtain ⟨t, ht⟩ := (ih l).mp hp
        exact ⟨t, by rw [ht, hab]; rfl⟩
      · rintro ⟨t, ht⟩
        rw [List.cons_append] at ht
        injection ht with h1 h2
        exact ⟨h1.symm, (ih l).mpr ⟨t, h2⟩⟩

theorem hasSubList_iff_exists (needle hay : List Char) :
    hasSubList needle hay = true ↔ ∃ l r, hay = l ++ needle ++ r := by
  induction hay with
  | nil =>
    simp only [hasSubList, isPrefixOf_iff_exists]
    constructor
    · rintro ⟨t, ht⟩
      exact ⟨[], t, ht⟩
    · rintro ⟨l, r, hlr⟩
      have hl : l = [] := by
        cases l with
        | nil => rfl
        | cons x xs => simp at hlr
      subst hl
      exact ⟨r, by simpa using hlr⟩
  | cons c rest ih =>
    simp only [hasSubList, Bool.or_eq_true, isPrefixOf_iff_exists, ih]
    constructor
    · rintro (⟨t, ht⟩ | ⟨l, r, hlr⟩)
      · exact ⟨[], t, by simpa using ht⟩
      · exact ⟨c :: l, r, by rw [hlr]; rfl⟩
    · rintro ⟨l, r, hlr⟩
      cases l with
      | nil =>
        left
        exact ⟨r, by simpa using hlr⟩
      | cons x xs =>
        right
        rw [List.cons_append, List.cons_append] at hlr
        injection hlr with h1 h2
        exact ⟨xs, r, h2⟩

theorem strIncludes_iff (s pat : String) :
    strIncludes s pat = true ↔ ∃ l r, s.toList = l ++ pat.toList ++ r :=
  hasSubList_iff_exists pat.toList s.toList

/-- Modelled from the spec's words for claim C6 only (to be compared with
the source's `isQuotaLimitError`): quota iff status 429 or the message
contains "quota" or "resource exhausted". -/
def claimQuotaClass (e : JsError) : Bool :=
  e.status == 429 || strIncludes e.message "quota" ||
    strIncludes e.message "resource exhausted"

/-- Modelled from the spec's words for claim C6 only (to be compared with
the source's `isRateLimitError`): rate-limit iff status 429/503 or the
message contains "rate limit", "too many requests", or "overloaded". -/
def claimRateClass (e : JsError) : Bool :=
  e.status == 429 || e.status == 503 || strIncludes e.message "rate limit" ||
    strIncludes e.message "too many requests" || strIncludes e.message "overloaded"

/-- Counterexample to C6 as stated: the source matches substrings
case-sensitively ("RESOURCE_EXHAUSTED", "Too Many Requests"), so an error
whose message is literally "resource exhausted" is NOT classified quota, and
one whose message is "too many requests" is NOT classified rate-limit,
although the claim says they are. -/
theorem classification_claim_counterexample :
    (claimQuotaClass { message := "resource exhausted", status := 0 } = true
      ∧ isQuotaLimitError { message := "resource exhausted", status := 0 } = false)
    ∧ (claimRateClass { message := "too many requests", status := 0 } = true
      ∧ isRateLimitError { message := "too many requests", status := 0 } = false) := by
  decide

/-- C6 (amended): quota iff status 429 or the message contains, case
sensitively, "quota", "RESOURCE_EXHAUSTED" or "exceeded your current
quota"; rate-limit iff status 429/503 or the message contains "rate limit",
"Too Many Requests" or "overloaded"; an error classified neither way never
triggers blacklisting — `handleApiError` leaves the state unchanged and
rethrows. -/
theorem classification_amended (e : JsError) (now a : Nat) (st : RotatorState) :
    (isQuotaLimitError e = true ↔
      (e.status = 429
        ∨ (∃ l r, e.message.toList = l ++ "quota".toList ++ r)
        ∨ (∃ l r, e.message.toList = l ++ "RESOURCE_EXHAUSTED".toList ++ r)
        ∨ (∃ l r, e.message.toList = l ++ "exceeded your current quota".toList ++ r)))
    ∧ (isRateLimitError e = true ↔
      (e.status = 429 ∨ e.status = 503
        ∨ (∃ l r, e.message.toList = l ++ "rate limit".toList ++ r)
        ∨ (∃ l r, e.message.toList = l ++ "Too Many Requests".toList ++ r)
        ∨ (∃ l r, e.message.toList = l ++ "overloaded".toList ++ r)))
    ∧ (isQuotaLimitError e = false → isRateLimitError e = false →
        handleApiError now e a st = (st, some e)) := by
  refine ⟨?_, ?_, ?_⟩
  · unfold isQuotaLimitError
    simp only [Bool.or_eq_true, beq_iff_eq, strIncludes_iff, or_assoc]
  · unfold isRateLimitError
    simp only [Bool.or_eq_true, beq_iff_eq, strIncludes_iff, or_assoc]
  · intro hq hr
    exact handleApiError_other now e a st hq hr

/-- Witness for C6 (amended), exercising the non-blacklisting branch and
both classifier directions at concrete errors. -/
theorem classification_amended_witness :
    handleApiError 1000 fatalErr 0 (freshPool ["k1"]) = (freshPool ["k1"], some fatalErr)
    ∧ isQuotaLimitError quotaErr = true := by
  refine ⟨(classification_amended fatalErr 1000 0 (freshPool ["k1"])).2.2
    (by decide) (by decide), ?_⟩
  exact (classification_amended quotaErr 1000 0 (freshPool ["k1"])).1.mpr (Or.inl (by decide))

/-- Decidable equality on `Except`, for evaluating concrete run results. -/
instance decEqExcept {e a : Type} [DecidableEq e] [DecidableEq a] :
    DecidableEq (Except e a) := fun x y =>
  match x, y with
  | Except.ok v, Except.ok w =>
    if h : v = w then isTrue (by rw [h]) else
      isFalse (by intro hc; injection hc; contradiction)
  | Except.ok _, Except.error _ => isFalse (by intro hc; cases hc)
  | Except.error _, Except.ok _ => isFalse (by intro hc; cases hc)
  | Except.error u, Except.error w =>
    if h : u = w then isTrue (by rw [h]) else
      isFalse (by intro hc; injection hc; contradiction)

/-! ### C2: attempts per provider under an always-quota request function -/

/-- For claim C2: what a default-`maxRetries` run actually does on a fresh
pool whose every upstream call fails with a quota error: `min(N, 3)`
attempts, the last quota error rethrown, exactly the first `min(N, 3)` keys
blacklisted. -/
def quotaRunStops (ks : List String) : Prop :=
  (makeGeminiRequest alwaysQuotaFn constClock defaultMaxRetries (freshPool ks)).2.2
    = min ks.length defaultMaxRetries
  ∧ (makeGeminiRequest alwaysQuotaFn constClock defaultMaxRetries (freshPool ks)).2.1
    = Except.error (some quotaErr)
  ∧ ∀ i ∈ List.range ks.length,
      ((statusAt (makeGeminiRequest alwaysQuotaFn constClock defaultMaxRetries
          (freshPool ks)).1 i).isBlacklisted = true
        ↔ i < min ks.length defaultMaxRetries)

/-- Counterexample to C2 as stated: with five keys and an always-quota
request function, the run stops after the default 3 attempts — not after
N = 5 — and keys 4 and 5 stay Active. -/
theorem keycount_default_counterexample :
    (makeGeminiRequest alwaysQuotaFn constClock defaultMaxRetries
        (freshPool ["k1", "k2", "k3", "k4", "k5"])).2.2 = 3
    ∧ (makeGeminiRequest alwaysQuotaFn constClock defaultMaxRetries
        (freshPool ["k1", "k2", "k3", "k4", "k5"])).2.2 ≠ 5
    ∧ (statusAt (makeGeminiRequest alwaysQuotaFn constClock defaultMaxRetries
        (freshPool ["k1", "k2", "k3", "k4", "k5"])).1 4).isBlacklisted = false := by
  decide

/-- C2 (amended): the attempt bound defaults to the constant
`maxRetries = 3`, not the pool's key count; under an always-quota request
function a run over a fresh N-key pool (N = 1..5, the constructible sizes)
performs exactly `min(N, 3)` upstream calls, blacklists exactly the first
`min(N, 3)` keys, and rethrows the last upstream quota error — the code
defines no `ProviderKeysExhausted`/`AllProvidersExhausted` value. -/
theorem keycount_default_amended :
    defaultMaxRetries = 3
    ∧ quotaRunStops ["k1"]
    ∧ quotaRunStops ["k1", "k2"]
    ∧ quotaRunStops ["k1", "k2", "k3"]
    ∧ quotaRunStops ["k1", "k2", "k3", "k4"]
    ∧ quotaRunStops ["k1", "k2", "k3", "k4", "k5"]
    ∧ mkRotator (some "k1") (some "k2") (some "k3") (some "k4") (some "k5")
        = Except.ok (freshPool ["k1", "k2", "k3", "k4", "k5"]) := by
  unfold quotaRunStops
  decide

/-! ### C1: provider fall-through -/

/-- The Scenario B run: first provider (the Gemini pool) has two keys, both
failing with quota errors; the caller then falls back. -/
def scenarioBRun : RotatorState × String × Nat :=
  generateInterviewQuestion alwaysQuotaFn constClock "intermediate" 1
    (freshPool ["k1", "k2"])

/-- Counterexample to C1 as stated: with 2 first-provider keys the claim
predicts 2 + 1 = 3 upstream attempts, but the pipeline performs exactly 2 —
the fallback source issues no upstream call. -/
theorem failover_claim_counterexample :
    scenarioBRun.2.2 = 2 ∧ scenarioBRun.2.2 ≠ 2 + 1 := by
  decide

/-- C1 (amended): the only keyed provider is the Gemini pool; when both of
its keys quota-fail the pipeline succeeds by returning the canned fallback
question after exactly 2 upstream attempts (one per P1 key), both P1 keys
end Blacklisted, and there is no second provider's key to count a request
on — the pool's total request count is 2. -/
theorem failover_amended :
    scenarioBRun.2.2 = 2
    ∧ scenarioBRun.2.1 = getFallbackQuestion "intermediate" 1
    ∧ (statusAt scenarioBRun.1 0).isBlacklisted = true
    ∧ (statusAt scenarioBRun.1 1).isBlacklisted = true
    ∧ totalRequests scenarioBRun.1 = 2
    ∧ mkRotator (some "k1") (some "k2") none none none
        = Except.ok (freshPool ["k1", "k2"]) := by
  decide

/-! ### C3: selection order and the all-blacklisted fallback -/

theorem countActive_eq_zero (st : RotatorState)
    (h : ∀ j, j < st.statuses.length → (statusAt st j).isBlacklisted = true) :
    countActive st = 0 := by
  unfold countActive
  rw [List.length_eq_zero]
  rw [List.filter_eq_nil_iff]
  intro s hs
  obtain ⟨j, hj, hget⟩ := List.mem_iff_getElem.mp hs
  have := h j hj
  rw [← statusAt_eq_getElem hj] at hget
  rw [← hget]
  simp [this]

/-- C3: `selectActive` (the source's `getActiveKey`) first runs cleanup,
returns an in-range index and re-points `currentIndex` at it; when any key
survives cleanup it returns the first non-blacklisted key scanning forward
from `currentIndex` with wrap-around; when every key is blacklisted (with
truthy expiries) it returns the first key attaining the minimum
`blacklistedUntil`, and `getStatus` reports `activeKeys = 0`. -/
theorem selectActive_selection_spec (now : Nat) (st : RotatorState)
    (hn : 0 < st.statuses.length) :
    ((getActiveKey now st).1.statuses = (cleanupExpiredBlacklists now st).statuses
      ∧ (getActiveKey now st).1.currentKeyIndex = (getActiveKey now st).2
      ∧ (getActiveKey now st).2 < st.statuses.length)
    ∧ ((∃ j, j < st.statuses.length ∧
          (statusAt (cleanupExpiredBlacklists now st) j).isBlacklisted = false) →
        (statusAt (cleanupExpiredBlacklists now st) (getActiveKey now st).2).isBlacklisted
            = false
        ∧ ∃ d, d < st.statuses.length ∧
            (getActiveKey now st).2 = (st.currentKeyIndex + d) % st.statuses.length ∧
            ∀ d', d' < d → (statusAt (cleanupExpiredBlacklists now st)
              ((st.currentKeyIndex + d') % st.statuses.length)).isBlacklisted = true)
    ∧ ((∀ j, j < st.statuses.length →
          (statusAt (cleanupExpiredBlacklists now st) j).isBlacklisted = true
          ∧ untilTruthy (statusAt (cleanupExpiredBlacklists now st) j).blacklistedUntil
              = true) →
        (∃ m, (statusAt (cleanupExpiredBlacklists now st)
              (getActiveKey now st).2).blacklistedUntil = some m
          ∧ (∀ j, j < st.statuses.length → ∀ u,
              (statusAt (cleanupExpiredBlacklists now st) j).blacklistedUntil = some u
                → m ≤ u)
          ∧ (∀ j, j < (getActiveKey now st).2 → ∀ u,
              (statusAt (cleanupExpiredBlacklists now st) j).blacklistedUntil = some u
                → m < u))
        ∧ (getStatus now st).2.activeKeys = 0) := by
  have hlen := cleanup_length now st
  refine ⟨⟨getActiveKey_fst_statuses now st, getActiveKey_fst_cur now st,
    getActiveKey_lt now st hn⟩, ?_, ?_⟩
  · intro hex
    refine ⟨getActiveKey_selects_active now st hex, ?_⟩
    unfold getActiveKey
    dsimp only
    cases hscan : scanActive (cleanupExpiredBlacklists now st) with
    | some k =>
      obtain ⟨hk, hbl, d, hd, hkd, hfirst⟩ := scanActive_spec hscan
      rw [cleanup_cur] at hkd hfirst
      rw [hlen] at hd hkd hfirst
      exact ⟨d, hd, by simpa [hscan] using hkd, hfirst⟩
    | none =>
      exfalso
      obtain ⟨j, hj, hbl⟩ := hex
      have := scanActive_none hscan j (by omega)
      rw [this] at hbl
      cases hbl
  · intro hall
    have hscan : scanActive (cleanupExpiredBlacklists now st) = none := by
      apply scanActive_none_of_all
      intro j hj
      exact (hall j (by omega)).1
    have hsel : (getActiveKey now st).2
        = earliestBlacklisted (cleanupExpiredBlacklists now st) := by
      unfold getActiveKey
      dsimp only
      rw [hscan]
    have hspec := earliestBlacklisted_spec (cleanupExpiredBlacklists now st)
      (by omega) (fun j hj => (hall j (by omega)).2)
    obtain ⟨hblt, m, hget, hmin, hstrict⟩ := hspec
    constructor
    · refine ⟨m, ?_, ?_, ?_⟩
      · rw [hsel]; exact hget
      · intro j hj u hu
        exact hmin j (by omega) u hu
      · intro j hj u hu
        rw [hsel] at hj
        exact hstrict j hj u hu
    · unfold getStatus
      dsimp only [getAvailableKeysCount]
      rw [cleanup_idem]
      apply countActive_eq_zero
      intro j hj
      exact (hall j (by omega)).1

/-- A three-key pool with every key blacklisted and distinct truthy
expiries (5000, 3000, 4000). -/
def blPool : RotatorState :=
  { statuses :=
      [{ key := "k1", isBlacklisted := true, blacklistedUntil := some 5000,
         lastUsed := none, requestCount := 1 },
       { key := "k2", isBlacklisted := true, blacklistedUntil := some 3000,
         lastUsed := none, requestCount := 1 },
       { key := "k3", isBlacklisted := true, blacklistedUntil := some 4000,
         lastUsed := none, requestCount := 1 }],
    currentKeyIndex := 2, blacklistDuration := blacklistDurationDefault }

/-- Witness for C3, exercising the all-blacklisted branch at a concrete
pool: the selected index is in range and `getStatus` reports zero active
keys. -/
theorem selectActive_selection_spec_witness :
    (getActiveKey 1000 blPool).2 < blPool.statuses.length
    ∧ (getStatus 1000 blPool).2.activeKeys = 0 := by
  have h := selectActive_selection_spec 1000 blPool (by decide)
  exact ⟨h.1.2.2, (h.2.2 (by decide)).2⟩

/-! ### C4: blacklist TTL boundary -/

/-- Placeholder view entry used for the positional lookup in the C4
statement (chosen blacklisted so the claim cannot hold vacuously out of
range). -/
def dummyView : KeyStatusView :=
  { key := "", isBlacklisted := true, requestCount := 0, blacklistedUntil := some 0 }

theorem getStatus_keyView (now : Nat) (st : RotatorState) (i : Nat)
    (hi : i < st.statuses.length) :
    (getStatus now st).2.keyStatuses.getD i dummyView
      = { key := maskKey (statusAt (cleanupExpiredBlacklists now st) i).key,
          isBlacklisted := (statusAt (cleanupExpiredBlacklists now st) i).isBlacklisted,
          requestCount := (statusAt (cleanupExpiredBlacklists now st) i).requestCount,
          blacklistedUntil :=
            (statusAt (cleanupExpiredBlacklists now st) i).blacklistedUntil } := by
  unfold getStatus
  dsimp only [getAvailableKeysCount]
  rw [cleanup_idem, cleanup_idem]
  have hi' : i < (cleanupExpiredBlacklists now st).statuses.length := by
    rw [cleanup_length]; exact hi
  rw [List.getD_eq_getElem?_getD, List.getElem?_map, List.getElem?_eq_getElem hi']
  rw [statusAt_eq_getElem hi']
  rfl

/-- C4: a key blacklisted until `T + Δ` is not selectable as active at any
access strictly before `T + Δ` (while any key is active, the scan never
returns it), and at any access at or after `T + Δ` the lazy cleanup
restores it: it becomes non-blacklisted with no expiry set, the scan can
return it (it does whenever every other key is still blacklisted), and
`getStatus` reports it Active with no expiry field. -/
theorem blacklist_ttl_boundary (st : RotatorState) (i T d now1 now2 : Nat)
    (hi : i < st.statuses.length)
    (hbl : (statusAt st i).isBlacklisted = true)
    (hbu : (statusAt st i).blacklistedUntil = some (T + d))
    (hpos : 0 < T + d)
    (h1 : now1 < T + d)
    (h2 : T + d ≤ now2) :
    ((statusAt (cleanupExpiredBlacklists now1 st) i).isBlacklisted = true
      ∧ ((∃ j, j < st.statuses.length ∧
            (statusAt (cleanupExpiredBlacklists now1 st) j).isBlacklisted = false) →
          (getActiveKey now1 st).2 ≠ i))
    ∧ ((statusAt (cleanupExpiredBlacklists now2 st) i).isBlacklisted = false
      ∧ (statusAt (cleanupExpiredBlacklists now2 st) i).blacklistedUntil = none
      ∧ ((∀ j, j < st.statuses.length → j ≠ i →
            (statusAt (cleanupExpiredBlacklists now2 st) j).isBlacklisted = true) →
          (getActiveKey now2 st).2 = i)
      ∧ ((getStatus now2 st).2.keyStatuses.getD i dummyView).isBlacklisted = false
      ∧ ((getStatus now2 st).2.keyStatuses.getD i dummyView).blacklistedUntil = none) := by
  have hflag1 : expiredFlag now1 (statusAt st i) = false := by
    unfold expiredFlag
    rw [hbl, hbu]
    simp only [Bool.true_and, Bool.and_eq_false_iff]
    right
    simpa using h1
  have hclean1 : statusAt (cleanupExpiredBlacklists now1 st) i = statusAt st i := by
    rw [statusAt_cleanup]
    unfold cleanupRec
    rw [hflag1]
    simp
  have hflag2 : expiredFlag now2 (statusAt st i) = true := by
    unfold expiredFlag
    rw [hbl, hbu]
    simp only [Bool.true_and, Bool.and_eq_true]
    constructor
    · simpa using Nat.pos_iff_ne_zero.mp hpos
    · simpa using h2
  have hclean2 : statusAt (cleanupExpiredBlacklists now2 st) i
      = { statusAt st i with isBlacklisted := false, blacklistedUntil := none } := by
    rw [statusAt_cleanup]
    unfold cleanupRec
    rw [hflag2]
    simp
  have hn : 0 < st.statuses.length := Nat.lt_of_le_of_lt (Nat.zero_le i) hi
  refine ⟨⟨by rw [hclean1]; exact hbl, ?_⟩, ?_, ?_, ?_, ?_, ?_⟩
  · intro hex heq
    have := getActiveKey_selects_active now1 st hex
    rw [heq, hclean1, hbl] at this
    cases this
  · rw [hclean2]
  · rw [hclean2]
  · intro hothers
    have hex : ∃ j, j < st.statuses.length ∧
        (statusAt (cleanupExpiredBlacklists now2 st) j).isBlacklisted = false :=
      ⟨i, hi, by rw [hclean2]⟩
    have hsel := getActiveKey_selects_active now2 st hex
    have hlt := getActiveKey_lt now2 st hn
    by_contra hne
    have := hothers (getActiveKey now2 st).2 hlt hne
    rw [this] at hsel
    cases hsel
  · rw [getStatus_keyView now2 st i hi]
    rw [hclean2]
  · rw [getStatus_keyView now2 st i hi]
    rw [hclean2]

/-- A single-key pool whose key was blacklisted at time 1000 with a 1000ms
TTL (so `blacklistedUntil = 2000`). -/
def ttlPool : RotatorState :=
  { statuses :=
      [{ key := "k1", isBlacklisted := true, blacklistedUntil := some 2000,
         lastUsed := some 1000, requestCount := 1 }],
    currentKeyIndex := 0, blacklistDuration := 1000 }

/-- Witness for C4 at Scenario D: TTL 1000ms, access 1001ms later —
`getStatus` reports the key Active with no expiry, and it is selectable. -/
theorem blacklist_ttl_boundary_witness :
    ((getStatus 2001 ttlPool).2.keyStatuses.getD 0 dummyView).isBlacklisted = false
    ∧ ((getStatus 2001 ttlPool).2.keyStatuses.getD 0 dummyView).blacklistedUntil = none
    ∧ (getActiveKey 2001 ttlPool).2 = 0
    ∧ (statusAt (cleanupExpiredBlacklists 1500 ttlPool) 0).isBlacklisted = true := by
  have h := blacklist_ttl_boundary ttlPool 0 1000 1000 1500 2001 (by decide) (by decide)
    (by decide) (by decide) (by decide) (by decide)
  refine ⟨h.2.2.2.2.1, h.2.2.2.2.2, ?_, h.1.1⟩
  apply h.2.2.2.1
  intro j hj hne
  exfalso
  have : j = 0 := by
    have : ttlPool.statuses.length = 1 := by decide
    omega
  exact hne this

/-! ### C9: the currentIndex invariant -/

theorem blacklist_cur_lt (now : Nat) (st : RotatorState)
    (hn : 0 < st.statuses.length) :
    (blacklistCurrentKey now st).currentKeyIndex
      < (blacklistCurrentKey now st).statuses.length := by
  unfold blacklistCurrentKey
  dsimp only
  rw [moveToNextKey_statuses]
  apply moveToNextKey_cur_lt
  rw [cleanup_length, update_length]
  exact hn

theorem handleApiError_cur_lt (now : Nat) (e : JsError) (a : Nat) (st : RotatorState)
    (hn : 0 < st.statuses.length) (hcur : st.currentKeyIndex < st.statuses.length) :
    (handleApiError now e a st).1.currentKeyIndex
      < (handleApiError now e a st).1.statuses.length := by
  unfold handleApiError
  dsimp only
  split
  · split
    · dsimp only [getAvailableKeysCount]
      have hb := blacklist_cur_lt now st hn
      split <;>
        · dsimp only
          rw [cleanup_length, cleanup_cur]
          exact hb
    · exact blacklist_cur_lt now st hn
  · exact hcur

/-- C9: `0 ≤ currentIndex < len(keys)` holds at construction (for any
successfully constructed rotator) and is preserved by selection, usage
recording, failure recording (blacklist + wrap-around advance), expiry
cleanup, and reset. -/
theorem currentIndex_invariant (st : RotatorState) (now : Nat) (e : JsError) (a : Nat)
    (e1 e2 e3 e4 e5 : Option String) (st0 : RotatorState)
    (hn : 0 < st.statuses.length)
    (hcur : st.currentKeyIndex < st.statuses.length)
    (hmk : mkRotator e1 e2 e3 e4 e5 = Except.ok st0) :
    (st0.currentKeyIndex = 0 ∧ 0 < st0.statuses.length
      ∧ st0.currentKeyIndex < st0.statuses.length)
    ∧ (getActiveKey now st).1.currentKeyIndex < (getActiveKey now st).1.statuses.length
    ∧ (getCurrentClient now st).1.currentKeyIndex
        < (getCurrentClient now st).1.statuses.length
    ∧ (handleApiError now e a st).1.currentKeyIndex
        < (handleApiError now e a st).1.statuses.length
    ∧ (cleanupExpiredBlacklists now st).currentKeyIndex
        < (cleanupExpiredBlacklists now st).statuses.length
    ∧ (resetAllKeys st).currentKeyIndex < (resetAllKeys st).statuses.length := by
  refine ⟨?_, ?_, ?_, handleApiError_cur_lt now e a st hn hcur, ?_, ?_⟩
  · unfold mkRotator at hmk
    dsimp only at hmk
    split at hmk
    · cases hmk
    · rename_i hne
      injection hmk with hmk
      subst hmk
      refine ⟨rfl, ?_, ?_⟩ <;> simpa using Nat.pos_of_ne_zero hne
  · rw [getActiveKey_fst_cur, getActiveKey_fst_statuses, cleanup_length]
    exact getActiveKey_lt now st hn
  · unfold getCurrentClient
    dsimp only
    rw [update_cur, update_length, getActiveKey_fst_cur, getActiveKey_fst_statuses,
      cleanup_length]
    exact getActiveKey_lt now st hn
  · rw [cleanup_cur, cleanup_length]
    exact hcur
  · unfold resetAllKeys
    dsimp only
    simpa using hcur

/-- Witness for C9 at a concrete two-key pool and a quota error. -/
theorem currentIndex_invariant_witness :
    (handleApiError 1000 quotaErr 0 (freshPool ["k1", "k2"])).1.currentKeyIndex
      < (handleApiError 1000 quotaErr 0 (freshPool ["k1", "k2"])).1.statuses.length
    ∧ (getCurrentClient 1000 (freshPool ["k1", "k2"])).1.currentKeyIndex
      < (getCurrentClient 1000 (freshPool ["k1", "k2"])).1.statuses.length := by
  have h := currentIndex_invariant (freshPool ["k1", "k2"]) 1000 quotaErr 0
    (some "k1") (some "k2") none none none (freshPool ["k1", "k2"])
    (by decide) (by decide) (by decide)
  exact ⟨h.2.2.2.1, h.2.2.1⟩

/-! ### C10: requestCount counts attempts -/

/-- C10: usage statistics are updated at selection time, before the
upstream call: `getCurrentClient` sets the selected key's `lastUsed` and
increments its `requestCount`, and over a whole `makeGeminiRequest` run the
pool's total `requestCount` grows by exactly the number of upstream
attempts, successful or not. -/
theorem requestCount_counts_attempts {α : Type} (rf : Nat → Nat → Except JsError α)
    (tFn : Nat → Nat) (mr : Nat) (now : Nat) (st : RotatorState)
    (hn : 0 < st.statuses.length) :
    ((statusAt (getCurrentClient now st).1 (getCurrentClient now st).2).requestCount
        = (statusAt (cleanupExpiredBlacklists now st) (getCurrentClient now st).2).requestCount + 1
      ∧ (statusAt (getCurrentClient now st).1 (getCurrentClient now st).2).lastUsed
        = some now)
    ∧ totalRequests (makeGeminiRequest rf tFn mr st).1
        = totalRequests st + (makeGeminiRequest rf tFn mr st).2.2 := by
  constructor
  · have hk2 : (getCurrentClient now st).2 = (getActiveKey now st).2 := rfl
    have hklt : (getActiveKey now st).2 < (getActiveKey now st).1.statuses.length := by
      rw [getActiveKey_fst_statuses, cleanup_length]
      exact getActiveKey_lt now st hn
    have hsa : statusAt (getActiveKey now st).1 (getActiveKey now st).2
        = statusAt (cleanupExpiredBlacklists now st) (getActiveKey now st).2 := by
      unfold statusAt
      rw [getActiveKey_fst_statuses]
    rw [hk2]
    unfold getCurrentClient
    dsimp only
    rw [statusAt_update, if_pos ⟨rfl, hklt⟩, hsa]
    exact ⟨rfl, rfl⟩
  · exact mkAux_totalRequests rf tFn mr 0 none st hn

/-- Witness for C10: an always-failing three-key run adds exactly its
attempt count (3) to the pool's total request count. -/
theorem requestCount_counts_attempts_witness :
    totalRequests (makeGeminiRequest alwaysQuotaFn constClock 3
        (freshPool ["k1", "k2", "k3"])).1
      = totalRequests (freshPool ["k1", "k2", "k3"])
        + (makeGeminiRequest alwaysQuotaFn constClock 3 (freshPool ["k1", "k2", "k3"])).2.2
    ∧ (statusAt (getCurrentClient 1000 (freshPool ["k1", "k2", "k3"])).1 0).requestCount = 1 := by
  have h := requestCount_counts_attempts alwaysQuotaFn constClock 3 1000
    (freshPool ["k1", "k2", "k3"]) (by decide)
  refine ⟨h.2, ?_⟩
  decide
